import Mathlib

/-!
Verification of the rig embeddable-extraction layer.

Shallow embedding of `src/rig-core/src/embeddings/embeddable.rs`:
the `Embeddable` trait, its scalar implementations (String, the signed
integer widths, the float widths, bool, char), the `Vec<T>` implementation,
and the record-struct extraction behaviour exercised by the tests of the crate
(`Company`, `Company2`, `FakeDefinition` with a custom `embed_with`
extractor).

Rust `Result<Vec<String>, E>` is modelled as `Except E (List String)`;
Rust `Vec<T>` as `List T`; machine integers as `Int` (no arithmetic is
performed on them, only decimal rendering, so width plays no role);
floats are kept abstract, parameterised by their `to_string` rendering.
-/

namespace Rig

/-- The error enum of `embeddable.rs`: `EmbeddableError::SerdeError`
wrapping a `serde_json::Error`, modelled by its message string. -/
inductive EmbeddableError where
  | SerdeError (msg : String)
deriving DecidableEq, Repr

/-- The two embedding kinds: `SingleEmbedding` and `ManyEmbedding`
(in the source these are marker types implementing `EmbeddingKind`). -/
inductive EmbeddingKind where
  | SingleEmbedding
  | ManyEmbedding
deriving DecidableEq, Repr

/-- Rust `impl Embeddable for String`: `Ok(vec![self.clone()])`. -/
def String.embeddable (s : String) : Except EmbeddableError (List String) :=
  Except.ok [s]

/-- Marker `type Kind = SingleEmbedding` of the `String` impl. -/
def String.Kind : EmbeddingKind := EmbeddingKind.SingleEmbedding

/-- Rust `impl Embeddable for i8`: `Ok(vec![self.to_string()])`. -/
def i8.embeddable (x : Int) : Except EmbeddableError (List String) :=
  Except.ok [toString x]

/-- Marker `type Kind = SingleEmbedding` of the `i8` impl. -/
def i8.Kind : EmbeddingKind := EmbeddingKind.SingleEmbedding

/-- Rust `impl Embeddable for i16`: `Ok(vec![self.to_string()])`. -/
def i16.embeddable (x : Int) : Except EmbeddableError (List String) :=
  Except.ok [toString x]

/-- Marker `type Kind = SingleEmbedding` of the `i16` impl. -/
def i16.Kind : EmbeddingKind := EmbeddingKind.SingleEmbedding

/-- Rust `impl Embeddable for i32`: `Ok(vec![self.to_string()])`. -/
def i32.embeddable (x : Int) : Except EmbeddableError (List String) :=
  Except.ok [toString x]

/-- Marker `type Kind = SingleEmbedding` of the `i32` impl. -/
def i32.Kind : EmbeddingKind := EmbeddingKind.SingleEmbedding

/-- Rust `impl Embeddable for i64`: `Ok(vec![self.to_string()])`. -/
def i64.embeddable (x : Int) : Except EmbeddableError (List String) :=
  Except.ok [toString x]

/-- Marker `type Kind = SingleEmbedding` of the `i64` impl. -/
def i64.Kind : EmbeddingKind := EmbeddingKind.SingleEmbedding

/-- Rust `impl Embeddable for i128`: `Ok(vec![self.to_string()])`. -/
def i128.embeddable (x : Int) : Except EmbeddableError (List String) :=
  Except.ok [toString x]

/-- Marker `type Kind = SingleEmbedding` of the `i128` impl. -/
def i128.Kind : EmbeddingKind := EmbeddingKind.SingleEmbedding

/-- Rust `impl Embeddable for f32`: `Ok(vec![self.to_string()])`.  The value and
its Rust `to_string` rendering are kept abstract (floating-point formatting
is outside the embedding): the impl wraps whatever `to_string` yields. -/
def f32.embeddable {α : Type} (toStr : α → String) (x : α) :
    Except EmbeddableError (List String) :=
  Except.ok [toStr x]

/-- Marker `type Kind = SingleEmbedding` of the `f32` impl. -/
def f32.Kind : EmbeddingKind := EmbeddingKind.SingleEmbedding

/-- Rust `impl Embeddable for f64`: `Ok(vec![self.to_string()])`, float value and
rendering abstract as for `f32`. -/
def f64.embeddable {α : Type} (toStr : α → String) (x : α) :
    Except EmbeddableError (List String) :=
  Except.ok [toStr x]

/-- Marker `type Kind = SingleEmbedding` of the `f64` impl. -/
def f64.Kind : EmbeddingKind := EmbeddingKind.SingleEmbedding

/-- Rust `impl Embeddable for bool`: `Ok(vec![self.to_string()])`
(`to_string` renders `true`/`false`, as the Lean `toString` does). -/
def Bool.embeddable (b : Bool) : Except EmbeddableError (List String) :=
  Except.ok [toString b]

/-- Marker `type Kind = SingleEmbedding` of the `bool` impl. -/
def Bool.Kind : EmbeddingKind := EmbeddingKind.SingleEmbedding

/-- Rust `impl Embeddable for char`: `Ok(vec![self.to_string()])`
(`to_string` on a char is the one-character string). -/
def Char.embeddable (c : Char) : Except EmbeddableError (List String) :=
  Except.ok [toString c]

/-- Marker `type Kind = SingleEmbedding` of the `char` impl. -/
def Char.Kind : EmbeddingKind := EmbeddingKind.SingleEmbedding

/-- Rust `impl<T: Embeddable> Embeddable for Vec<T>`: map `embeddable` over the
elements, collect into a `Result` (short-circuiting at the first element
error, exactly as `collect::<Result<Vec<_>, _>>()?` does), then flatten.
The element impl is passed explicitly as `f`. -/
def Vec.embeddable {α ε : Type} (f : α → Except ε (List String))
    (v : List α) : Except ε (List String) := do
  let nested ← v.mapM f
  return nested.flatten

/-- Marker `type Kind = ManyEmbedding` of the `Vec<T>` impl. -/
def Vec.Kind : EmbeddingKind := EmbeddingKind.ManyEmbedding

/-! ## Record structs of the test suite of the crate

The `#[derive(Embeddable)]` expansion lives in
`rig-core-derive/src/embeddable.rs`, which is not among the provided source
files; only the derive entry point and the structs/tests that use it are.
The derived `embeddable` is therefore modelled from the spec (§4.1/§8):
fragments of the `#[embed]`-marked fields, concatenated in field-declaration
order, unmarked fields contributing nothing, a `#[embed(embed_with = "f")]`
field contributing exactly the fragments returned by `f`. -/

/-- The `Company` struct: `id: String`, `company: String`,
`#[embed] employee_ages: Vec<i32>` — only `employee_ages` is marked. -/
structure Company where
  id : String
  company : String
  employee_ages : List Int

/-- Modelled from the spec: the derive-macro expansion
(`rig-core-derive/src/embeddable.rs`) is missing from the sources; per
spec §4.1, the derived `embeddable` concatenates the fragments of the
marked fields in declaration order.  For `Company` the only marked field is
`employee_ages: Vec<i32>`. -/
def Company.embeddable (c : Company) : Except EmbeddableError (List String) :=
  Vec.embeddable i32.embeddable c.employee_ages

/-- The `Company2` struct: `id: String`, `#[embed] company: String`,
`#[embed] employee_ages: Vec<i32>` — both `company` and `employee_ages`
are marked. -/
structure Company2 where
  id : String
  company : String
  employee_ages : List Int

/-- Modelled from the spec: derived `embeddable` for `Company2` —
the `company` fragment(s) followed by the `employee_ages` fragments,
in declaration order (spec §4.1, exercised by `test_many_embed`). -/
def Company2.embeddable (c : Company2) : Except EmbeddableError (List String) := do
  let a ← String.embeddable c.company
  let b ← Vec.embeddable i32.embeddable c.employee_ages
  return a ++ b

/-- The `Definition` struct serialized by the custom extractor:
fields `word`, `link`, `speech`, all strings, serialized in declaration
order by `serde_json`. -/
structure Definition where
  word : String
  link : String
  speech : String

/-- Escaping by `serde_json` of one character inside a JSON string:
`"` and `\` are backslash-escaped, the named control characters use their
short forms, remaining control characters use `\u00xx`, everything else
is passed through. -/
def jsonEscapeChar (c : Char) : String :=
  if c = '"' then "\\\""
  else if c = '\\' then "\\\\"
  else if c = '\x08' then "\\b"
  else if c = '\x09' then "\\t"
  else if c = '\x0a' then "\\n"
  else if c = '\x0c' then "\\f"
  else if c = '\x0d' then "\\r"
  else if c.toNat < 0x20 then
    "\\u00" ++ String.singleton (Nat.digitChar (c.toNat / 16)) ++
      String.singleton (Nat.digitChar (c.toNat % 16))
  else String.singleton c

/-- A JSON string literal: the escaped characters between double quotes. -/
def jsonString (s : String) : String :=
  "\"" ++ String.join (s.toList.map jsonEscapeChar) ++ "\""

/-- Rust `serde_json::to_string` on a `Definition`: an object literal with the
three string fields in declaration order, no whitespace. -/
def serializeDefinition (d : Definition) : String :=
  "\x7b\"word\":" ++ jsonString d.word ++ ",\"link\":" ++ jsonString d.link ++
    ",\"speech\":" ++ jsonString d.speech ++ "\x7d"

/-- Custom extractor `serialize` of the test module:
`Ok(vec![serde_json::to_string(&definition)?])`.  Serialization of a
struct whose fields are all strings cannot fail, so the `map_err` branch
is unreachable and the call is modelled as the serialized string. -/
def serialize (definition : Definition) : Except EmbeddableError (List String) :=
  Except.ok [serializeDefinition definition]

/-- The `FakeDefinition` struct: `id: String`, `word: String`,
`#[embed(embed_with = "serialize")] definition: Definition` — only
`definition` is marked, via the custom extractor. -/
structure FakeDefinition where
  id : String
  word : String
  definition : Definition

/-- Modelled from the spec: derived `embeddable` for `FakeDefinition` —
the single marked field `definition` contributes exactly the fragments
returned by its `embed_with` function `serialize` (spec §4.1(c),
exercised by `test_custom_embed`). -/
def FakeDefinition.embeddable (fd : FakeDefinition) :
    Except EmbeddableError (List String) :=
  serialize fd.definition

/-! ## Helper lemmas about `Vec.embeddable` -/

theorem exceptBind_ok {α β ε : Type} (a : α) (k : α → Except ε β) :
    (Except.ok a >>= k) = k a := rfl

theorem exceptBind_error {α β ε : Type} (e : ε) (k : α → Except ε β) :
    ((Except.error e : Except ε α) >>= k) = Except.error e := rfl

/-- When every element of `v` extracts to `frags x`, `collect` succeeds
with the list of those fragment lists. -/
theorem mapM_ok_of {α ε : Type} (f : α → Except ε (List String))
    (frags : α → List String) (v : List α)
    (h : ∀ x ∈ v, f x = Except.ok (frags x)) :
    v.mapM f = Except.ok (v.map frags) := by
  induction v with
  | nil => rfl
  | cons x xs ih =>
    rw [List.mapM_cons, h x (List.mem_cons_self x xs),
      ih (fun y hy => h y (List.mem_cons_of_mem x hy))]
    rfl

/-- When every element of `v` extracts to `frags x`, the `Vec` impl
returns the flattened fragment lists, in element order. -/
theorem vecEmbeddable_ok_of {α ε : Type} (f : α → Except ε (List String))
    (frags : α → List String) (v : List α)
    (h : ∀ x ∈ v, f x = Except.ok (frags x)) :
    Vec.embeddable f v = Except.ok ((v.map frags).flatten) := by
  unfold Vec.embeddable
  rw [mapM_ok_of f frags v h]
  rfl

/-- Single-fragment elements: the `Vec` impl returns one fragment per
element, in order. -/
theorem vecEmbeddable_single {α ε : Type} (f : α → Except ε (List String))
    (g : α → String) (v : List α)
    (h : ∀ x ∈ v, f x = Except.ok [g x]) :
    Vec.embeddable f v = Except.ok (v.map g) := by
  rw [vecEmbeddable_ok_of f (fun x => [g x]) v h]
  congr 1
  induction v with
  | nil => rfl
  | cons x xs ih => simp [ih fun y hy => h y (List.mem_cons_of_mem x hy)]

/-- The `Vec` impl fails exactly when the element collection does. -/
theorem vecEmbeddable_error_iff {α ε : Type} (f : α → Except ε (List String))
    (v : List α) (e : ε) :
    Vec.embeddable f v = Except.error e ↔ v.mapM f = Except.error e := by
  unfold Vec.embeddable
  cases h : v.mapM f with
  | error e2 =>
    rw [exceptBind_error]
    constructor
    · intro h2; injection h2 with he; rw [he]
    · intro h2; injection h2 with he; rw [he]
  | ok l =>
    rw [exceptBind_ok]
    constructor
    · intro h2; cases h2
    · intro h2; cases h2

/-- An error of the collection comes from some element. -/
theorem mapM_error_mem {α ε : Type} (f : α → Except ε (List String))
    (v : List α) (e : ε) (h : v.mapM f = Except.error e) :
    ∃ x ∈ v, f x = Except.error e := by
  induction v with
  | nil =>
    rw [List.mapM_nil] at h
    cases h
  | cons x xs ih =>
    rw [List.mapM_cons] at h
    cases hx : f x with
    | error e2 =>
      rw [hx, exceptBind_error] at h
      cases h
      exact ⟨x, List.mem_cons_self x xs, hx⟩
    | ok l =>
      rw [hx, exceptBind_ok] at h
      cases hxs : xs.mapM f with
      | error e2 =>
        rw [hxs, exceptBind_error] at h
        cases h
        obtain ⟨y, hy, hfy⟩ := ih hxs
        exact ⟨y, List.mem_cons_of_mem x hy, hfy⟩
      | ok ls =>
        rw [hxs, exceptBind_ok] at h
        cases h

/-- Collection via `collect` short-circuits at the first failing element: if everything
before `x` succeeds and `x` fails with `e`, the collection fails with `e`. -/
theorem mapM_error_first {α ε : Type} (f : α → Except ε (List String))
    (pre : List α) (x : α) (post : List α) (e : ε)
    (hpre : ∀ y ∈ pre, ∃ l, f y = Except.ok l)
    (hx : f x = Except.error e) :
    (pre ++ x :: post).mapM f = Except.error e := by
  induction pre with
  | nil =>
    rw [List.nil_append, List.mapM_cons, hx, exceptBind_error]
  | cons y ys ih =>
    obtain ⟨l, hl⟩ := hpre y (List.mem_cons_self y ys)
    rw [List.cons_append, List.mapM_cons, hl, exceptBind_ok,
      ih (fun z hz => hpre z (List.mem_cons_of_mem y hz)), exceptBind_error]

/-- Inversion: a successful `Vec` extraction comes from a successful
collection whose flattening is the result. -/
theorem vecEmbeddable_ok_inv {α ε : Type} (f : α → Except ε (List String))
    (v : List α) (a : List String) (h : Vec.embeddable f v = Except.ok a) :
    ∃ n, v.mapM f = Except.ok n ∧ n.flatten = a := by
  unfold Vec.embeddable at h
  cases hv : v.mapM f with
  | error e =>
    rw [hv, exceptBind_error] at h
    cases h
  | ok n =>
    rw [hv, exceptBind_ok] at h
    injection h with ha
    exact ⟨n, rfl, ha⟩

/-- If every element extracts successfully, the `Vec` impl succeeds. -/
theorem vecEmbeddable_exists_ok {α ε : Type} (f : α → Except ε (List String))
    (v : List α) (h : ∀ x ∈ v, ∃ l, f x = Except.ok l) :
    ∃ a, Vec.embeddable f v = Except.ok a := by
  induction v with
  | nil => exact ⟨[], rfl⟩
  | cons x xs ih =>
    obtain ⟨l, hl⟩ := h x (List.mem_cons_self x xs)
    obtain ⟨a, ha⟩ := ih fun y hy => h y (List.mem_cons_of_mem x hy)
    obtain ⟨n, hn, hfn⟩ := vecEmbeddable_ok_inv f xs a ha
    refine ⟨(l :: n).flatten, ?_⟩
    unfold Vec.embeddable
    rw [List.mapM_cons, hl, exceptBind_ok, hn, exceptBind_ok]
    rfl

/-- Concatenation homomorphism on successful extractions. -/
theorem vecEmbeddable_append {α ε : Type} (f : α → Except ε (List String))
    (xs ys : List α) (a b : List String)
    (ha : Vec.embeddable f xs = Except.ok a)
    (hb : Vec.embeddable f ys = Except.ok b) :
    Vec.embeddable f (xs ++ ys) = Except.ok (a ++ b) := by
  obtain ⟨n1, hn1, hf1⟩ := vecEmbeddable_ok_inv f xs a ha
  obtain ⟨n2, hn2, hf2⟩ := vecEmbeddable_ok_inv f ys b hb
  unfold Vec.embeddable
  rw [List.mapM_append, hn1, exceptBind_ok, hn2, exceptBind_ok]
  show Except.ok ((n1 ++ n2).flatten) = Except.ok (a ++ b)
  rw [List.flatten_append, hf1, hf2]

/-- Elementwise extraction of an `i32` always yields the decimal string. -/
theorem i32_vecEmbeddable (ages : List Int) :
    Vec.embeddable i32.embeddable ages = Except.ok (ages.map toString) :=
  vecEmbeddable_single i32.embeddable toString ages (fun _ _ => rfl)

/-- A concrete fallible element extractor used to witness the error paths
of the `Vec<T>` impl: fails on `0`, behaves like the `i32` impl elsewhere. -/
def failOnZero (n : Int) : Except EmbeddableError (List String) :=
  if n = 0 then Except.error (EmbeddableError.SerdeError "boom")
  else i32.embeddable n

/-! ## Claim theorems -/

/-- C1: extraction returns the fragments in declared-field order — for a
record with `company` and `ages` both marked, the company string first and
then the decimal string of each age in sequence order (`Company2`, as in
`test_many_embed`); with only `ages` marked, exactly the age fragments in
order and the unmarked fields contribute nothing (`Company`, as in
`test_multiple_embed`); in particular `{company: Acme, ages: [25, 30]}`
yields `[Acme, 25, 30]`, and `[25, 30]` when only `ages` is marked. -/
theorem extraction_declared_field_order (id company : String) (ages : List Int) :
    Company2.embeddable ⟨id, company, ages⟩ =
      Except.ok (company :: ages.map toString) ∧
    Company.embeddable ⟨id, company, ages⟩ = Except.ok (ages.map toString) ∧
    Company2.embeddable ⟨"doc1", "Acme", [25, 30]⟩ =
      Except.ok ["Acme", "25", "30"] ∧
    Company.embeddable ⟨"doc1", "Acme", [25, 30]⟩ = Except.ok ["25", "30"] := by
  refine ⟨?_, ?_, ?_, ?_⟩
  · show (String.embeddable company >>= fun a =>
      Vec.embeddable i32.embeddable ages >>= fun b => pure (a ++ b)) = _
    rw [show String.embeddable company = Except.ok [company] from rfl,
      exceptBind_ok, i32_vecEmbeddable, exceptBind_ok]
    show Except.ok ([company] ++ ages.map toString) = _
    rw [List.singleton_append]
  · show Vec.embeddable i32.embeddable ages = _
    exact i32_vecEmbeddable ages
  · rfl
  · rfl

/-- C2: for every vector whose elements all extract successfully, the
`Vec<T>` impl returns the concatenation of the element fragment lists in
element order; a vector of single-fragment elements contributes exactly
one fragment per element, contiguously and in order. -/
theorem vec_elementwise_concatenation (α ε : Type)
    (f : α → Except ε (List String)) (frags : α → List String) (v : List α)
    (h : ∀ x ∈ v, f x = Except.ok (frags x)) :
    Vec.embeddable f v = Except.ok ((v.map frags).flatten) ∧
    ((∀ x ∈ v, (frags x).length = 1) →
      ((v.map frags).flatten).length = v.length) := by
  refine ⟨vecEmbeddable_ok_of f frags v h, ?_⟩
  intro h1
  clear h
  induction v with
  | nil => rfl
  | cons x xs ih =>
    rw [List.map_cons, List.flatten_cons, List.length_append,
      h1 x (List.mem_cons_self x xs),
      ih (fun y hy => h1 y (List.mem_cons_of_mem x hy)), List.length_cons,
      Nat.add_comm]

/-- Witness for C2 at the concrete vector `[25, 30]` of `i32`s. -/
theorem vec_elementwise_concatenation_witness :
    Vec.embeddable i32.embeddable [(25 : Int), 30] =
      Except.ok (([(25 : Int), 30].map fun x => [toString x]).flatten) ∧
    ((∀ x ∈ [(25 : Int), 30], ([toString x]).length = 1) →
      (([(25 : Int), 30].map fun x => [toString x]).flatten).length =
        [(25 : Int), 30].length) :=
  vec_elementwise_concatenation Int EmbeddableError i32.embeddable
    (fun x => [toString x]) [25, 30] (fun _ _ => rfl)

/-- C3: every primitive impl returns a single fragment in canonical text
form — a String yields itself, the integer widths yield the decimal
string, the float widths yield their `to_string` rendering, a bool yields
`true`/`false`, a char yields the one-character string containing it. -/
theorem scalar_canonical_text :
    (∀ s : String, String.embeddable s = Except.ok [s]) ∧
    (∀ x : Int, i8.embeddable x = Except.ok [toString x]) ∧
    (∀ x : Int, i16.embeddable x = Except.ok [toString x]) ∧
    (∀ x : Int, i32.embeddable x = Except.ok [toString x]) ∧
    (∀ x : Int, i64.embeddable x = Except.ok [toString x]) ∧
    (∀ x : Int, i128.embeddable x = Except.ok [toString x]) ∧
    (∀ (α : Type) (toStr : α → String) (x : α),
      f32.embeddable toStr x = Except.ok [toStr x]) ∧
    (∀ (α : Type) (toStr : α → String) (x : α),
      f64.embeddable toStr x = Except.ok [toStr x]) ∧
    (∀ b : Bool, Bool.embeddable b = Except.ok [toString b]) ∧
    Bool.embeddable true = Except.ok ["true"] ∧
    Bool.embeddable false = Except.ok ["false"] ∧
    (∀ c : Char, Char.embeddable c = Except.ok [String.singleton c]) ∧
    (∀ c : Char, (String.singleton c).length = 1) :=
  ⟨fun _ => rfl, fun _ => rfl, fun _ => rfl, fun _ => rfl, fun _ => rfl,
    fun _ => rfl, fun _ _ _ => rfl, fun _ _ _ => rfl, fun _ => rfl, rfl, rfl,
    fun _ => rfl, fun _ => rfl⟩

/-- C4: if some element of a vector fails to extract, the `Vec<T>` impl
returns the first element error in order and no partial fragment list. -/
theorem vec_first_error_propagation (α ε : Type)
    (f : α → Except ε (List String)) (pre : List α) (x : α) (post : List α)
    (e : ε) (hpre : ∀ y ∈ pre, ∃ l, f y = Except.ok l)
    (hx : f x = Except.error e) :
    Vec.embeddable f (pre ++ x :: post) = Except.error e :=
  (vecEmbeddable_error_iff f (pre ++ x :: post) e).mpr
    (mapM_error_first f pre x post e hpre hx)

/-- Witness for C4: the middle element of `[1, 0, 2]` fails under
`failOnZero`, and the whole vector extraction fails with that error. -/
theorem vec_first_error_propagation_witness :
    Vec.embeddable failOnZero ([1] ++ (0 : Int) :: [2]) =
      Except.error (EmbeddableError.SerdeError "boom") :=
  vec_first_error_propagation Int EmbeddableError failOnZero [1] 0 [2]
    (EmbeddableError.SerdeError "boom")
    (fun y hy => by
      rw [show y = 1 from List.mem_singleton.mp hy]
      exact ⟨["1"], rfl⟩)
    rfl

/-- C5 counterexample: extraction CAN successfully produce an empty
fragment sequence — a `Company` whose marked `employee_ages` field is the
empty vector extracts to `Ok` of the empty list, not an error. -/
theorem empty_vec_field_counterexample :
    Company.embeddable ⟨"doc1", "Acme", []⟩ = Except.ok [] := rfl

/-- C5 amended: when the marked sequence field is nonempty, extraction
succeeds with at least one fragment; the guarantee fails for an empty
sequence field (see the counterexample), where extraction succeeds with
zero fragments. -/
theorem nonempty_field_extraction_nonempty (id company : String)
    (ages : List Int) (h : ages ≠ []) :
    ∃ l, Company.embeddable ⟨id, company, ages⟩ = Except.ok l ∧
      1 ≤ l.length := by
  refine ⟨ages.map toString, i32_vecEmbeddable ages, ?_⟩
  rw [List.length_map]
  exact List.length_pos.mpr h

/-- Witness for the amended C5 at `employee_ages = [25]`. -/
theorem nonempty_field_extraction_nonempty_witness :
    ∃ l, Company.embeddable ⟨"doc1", "Acme", [25]⟩ = Except.ok l ∧
      1 ≤ l.length :=
  nonempty_field_extraction_nonempty "doc1" "Acme" [25] (by decide)

/-- C6: a field marked `embed_with = serialize` contributes exactly the
fragments returned by `serialize`: one fragment holding the JSON
serialization of the value of the field, while the unmarked `id` and `word`
fields contribute nothing (the result depends only on `definition`); at
the `test_custom_embed` input the fragment is the exact JSON string the
test expects. -/
theorem custom_extractor_fragments :
    (∀ fd : FakeDefinition,
      FakeDefinition.embeddable fd =
        Except.ok [serializeDefinition fd.definition]) ∧
    FakeDefinition.embeddable
      ⟨"doc1", "house",
        ⟨"a building in which people live; residence for human beings.",
          "https://www.dictionary.com/browse/house", "noun"⟩⟩ =
      Except.ok
        ["\x7b\"word\":\"a building in which people live; residence for human beings.\",\"link\":\"https://www.dictionary.com/browse/house\",\"speech\":\"noun\"\x7d"] :=
  ⟨fun _ => rfl, rfl⟩

/-- C7: extraction is deterministic — for every value of an embeddable
type shown in the source, two calls on the same value return equal
results (the impls are pure functions of the value: the source methods
take `&self` and touch no mutable state). -/
theorem extraction_deterministic :
    (∀ s₁ s₂ : String, s₁ = s₂ →
      String.embeddable s₁ = String.embeddable s₂) ∧
    (∀ x₁ x₂ : Int, x₁ = x₂ → i8.embeddable x₁ = i8.embeddable x₂) ∧
    (∀ x₁ x₂ : Int, x₁ = x₂ → i16.embeddable x₁ = i16.embeddable x₂) ∧
    (∀ x₁ x₂ : Int, x₁ = x₂ → i32.embeddable x₁ = i32.embeddable x₂) ∧
    (∀ x₁ x₂ : Int, x₁ = x₂ → i64.embeddable x₁ = i64.embeddable x₂) ∧
    (∀ x₁ x₂ : Int, x₁ = x₂ → i128.embeddable x₁ = i128.embeddable x₂) ∧
    (∀ (α : Type) (toStr : α → String) (x₁ x₂ : α), x₁ = x₂ →
      f32.embeddable toStr x₁ = f32.embeddable toStr x₂) ∧
    (∀ (α : Type) (toStr : α → String) (x₁ x₂ : α), x₁ = x₂ →
      f64.embeddable toStr x₁ = f64.embeddable toStr x₂) ∧
    (∀ b₁ b₂ : Bool, b₁ = b₂ → Bool.embeddable b₁ = Bool.embeddable b₂) ∧
    (∀ c₁ c₂ : Char, c₁ = c₂ → Char.embeddable c₁ = Char.embeddable c₂) ∧
    (∀ (α ε : Type) (f : α → Except ε (List String)) (v₁ v₂ : List α),
      v₁ = v₂ → Vec.embeddable f v₁ = Vec.embeddable f v₂) ∧
    (∀ c₁ c₂ : Company, c₁ = c₂ →
      Company.embeddable c₁ = Company.embeddable c₂) ∧
    (∀ c₁ c₂ : Company2, c₁ = c₂ →
      Company2.embeddable c₁ = Company2.embeddable c₂) ∧
    (∀ fd₁ fd₂ : FakeDefinition, fd₁ = fd₂ →
      FakeDefinition.embeddable fd₁ = FakeDefinition.embeddable fd₂) :=
  ⟨fun _ _ h => by rw [h], fun _ _ h => by rw [h], fun _ _ h => by rw [h],
    fun _ _ h => by rw [h], fun _ _ h => by rw [h], fun _ _ h => by rw [h],
    fun _ _ _ _ h => by rw [h], fun _ _ _ _ h => by rw [h],
    fun _ _ h => by rw [h], fun _ _ h => by rw [h],
    fun _ _ _ _ _ h => by rw [h], fun _ _ h => by rw [h],
    fun _ _ h => by rw [h], fun _ _ h => by rw [h]⟩

/-- Witness for C7: two calls on the string value of `test_simple_embed`
agree. -/
theorem extraction_deterministic_witness :
    String.embeddable
        "a building in which people live; residence for human beings." =
      String.embeddable
        "a building in which people live; residence for human beings." :=
  extraction_deterministic.1 _ _ rfl

/-- C8: every impl whose `Kind` is `SingleEmbedding` (String, the integer
widths, the float widths, bool, char) returns exactly one fragment
whenever it succeeds. -/
theorem single_kind_single_fragment :
    (String.Kind = EmbeddingKind.SingleEmbedding ∧
      ∀ (s : String) (l : List String),
        String.embeddable s = Except.ok l → l.length = 1) ∧
    (i8.Kind = EmbeddingKind.SingleEmbedding ∧
      ∀ (x : Int) (l : List String),
        i8.embeddable x = Except.ok l → l.length = 1) ∧
    (i16.Kind = EmbeddingKind.SingleEmbedding ∧
      ∀ (x : Int) (l : List String),
        i16.embeddable x = Except.ok l → l.length = 1) ∧
    (i32.Kind = EmbeddingKind.SingleEmbedding ∧
      ∀ (x : Int) (l : List String),
        i32.embeddable x = Except.ok l → l.length = 1) ∧
    (i64.Kind = EmbeddingKind.SingleEmbedding ∧
      ∀ (x : Int) (l : List String),
        i64.embeddable x = Except.ok l → l.length = 1) ∧
    (i128.Kind = EmbeddingKind.SingleEmbedding ∧
      ∀ (x : Int) (l : List String),
        i128.embeddable x = Except.ok l → l.length = 1) ∧
    (f32.Kind = EmbeddingKind.SingleEmbedding ∧
      ∀ (α : Type) (toStr : α → String) (x : α) (l : List String),
        f32.embeddable toStr x = Except.ok l → l.length = 1) ∧
    (f64.Kind = EmbeddingKind.SingleEmbedding ∧
      ∀ (α : Type) (toStr : α → String) (x : α) (l : List String),
        f64.embeddable toStr x = Except.ok l → l.length = 1) ∧
    (Bool.Kind = EmbeddingKind.SingleEmbedding ∧
      ∀ (b : Bool) (l : List String),
        Bool.embeddable b = Except.ok l → l.length = 1) ∧
    (Char.Kind = EmbeddingKind.SingleEmbedding ∧
      ∀ (c : Char) (l : List String),
        Char.embeddable c = Except.ok l → l.length = 1) :=
  ⟨⟨rfl, fun _ _ h => by cases h; rfl⟩, ⟨rfl, fun _ _ h => by cases h; rfl⟩,
    ⟨rfl, fun _ _ h => by cases h; rfl⟩, ⟨rfl, fun _ _ h => by cases h; rfl⟩,
    ⟨rfl, fun _ _ h => by cases h; rfl⟩, ⟨rfl, fun _ _ h => by cases h; rfl⟩,
    ⟨rfl, fun _ _ _ _ h => by cases h; rfl⟩,
    ⟨rfl, fun _ _ _ _ h => by cases h; rfl⟩,
    ⟨rfl, fun _ _ h => by cases h; rfl⟩,
    ⟨rfl, fun _ _ h => by cases h; rfl⟩⟩

/-- Witness for C8 at the concrete string `hi`. -/
theorem single_kind_single_fragment_witness : (["hi"] : List String).length = 1 :=
  single_kind_single_fragment.1.2 "hi" ["hi"] rfl

/-- C9: the scalar impls are infallible — every input returns `Ok` and
the error branch is unreachable — while the `Vec<T>` impl errors only
when the extraction of some element does. -/
theorem scalar_infallible_vec_error_from_element :
    (∀ s : String, ∃ l, String.embeddable s = Except.ok l) ∧
    (∀ x : Int, ∃ l, i8.embeddable x = Except.ok l) ∧
    (∀ x : Int, ∃ l, i16.embeddable x = Except.ok l) ∧
    (∀ x : Int, ∃ l, i32.embeddable x = Except.ok l) ∧
    (∀ x : Int, ∃ l, i64.embeddable x = Except.ok l) ∧
    (∀ x : Int, ∃ l, i128.embeddable x = Except.ok l) ∧
    (∀ (α : Type) (toStr : α → String) (x : α),
      ∃ l, f32.embeddable toStr x = Except.ok l) ∧
    (∀ (α : Type) (toStr : α → String) (x : α),
      ∃ l, f64.embeddable toStr x = Except.ok l) ∧
    (∀ b : Bool, ∃ l, Bool.embeddable b = Except.ok l) ∧
    (∀ c : Char, ∃ l, Char.embeddable c = Except.ok l) ∧
    (∀ (α ε : Type) (f : α → Except ε (List String)) (v : List α) (e : ε),
      Vec.embeddable f v = Except.error e → ∃ x ∈ v, f x = Except.error e) :=
  ⟨fun s => ⟨[s], rfl⟩, fun x => ⟨[toString x], rfl⟩,
    fun x => ⟨[toString x], rfl⟩, fun x => ⟨[toString x], rfl⟩,
    fun x => ⟨[toString x], rfl⟩, fun x => ⟨[toString x], rfl⟩,
    fun _ toStr x => ⟨[toStr x], rfl⟩, fun _ toStr x => ⟨[toStr x], rfl⟩,
    fun b => ⟨[toString b], rfl⟩, fun c => ⟨[toString c], rfl⟩,
    fun _ _ f v e h =>
      mapM_error_mem f v e ((vecEmbeddable_error_iff f v e).mp h)⟩

/-- Witness for C9: a failing `Vec` extraction under `failOnZero` traces
back to the failing element `0`. -/
theorem scalar_infallible_vec_error_from_element_witness :
    ∃ x ∈ [(0 : Int)],
      failOnZero x = Except.error (EmbeddableError.SerdeError "boom") :=
  scalar_infallible_vec_error_from_element.2.2.2.2.2.2.2.2.2.2 Int
    EmbeddableError failOnZero [0] (EmbeddableError.SerdeError "boom") rfl

/-- C10: the `Vec<T>` impl is a homomorphism for concatenation — when all
elements of `xs ++ ys` extract successfully, the extraction of `xs ++ ys`
is the concatenation of the extractions of `xs` and of `ys`. -/
theorem vec_concat_homomorphism (α ε : Type)
    (f : α → Except ε (List String)) (xs ys : List α)
    (h : ∀ x ∈ xs ++ ys, ∃ l, f x = Except.ok l) :
    ∃ a b, Vec.embeddable f xs = Except.ok a ∧
      Vec.embeddable f ys = Except.ok b ∧
      Vec.embeddable f (xs ++ ys) = Except.ok (a ++ b) := by
  obtain ⟨a, ha⟩ := vecEmbeddable_exists_ok f xs
    (fun x hx => h x (List.mem_append_left ys hx))
  obtain ⟨b, hb⟩ := vecEmbeddable_exists_ok f ys
    (fun x hx => h x (List.mem_append_right xs hx))
  exact ⟨a, b, ha, hb, vecEmbeddable_append f xs ys a b ha hb⟩

/-- Witness for C10 at `[25] ++ [30]` of `i32`s. -/
theorem vec_concat_homomorphism_witness :
    ∃ a b, Vec.embeddable i32.embeddable [(25 : Int)] = Except.ok a ∧
      Vec.embeddable i32.embeddable [(30 : Int)] = Except.ok b ∧
      Vec.embeddable i32.embeddable ([(25 : Int)] ++ [(30 : Int)]) =
        Except.ok (a ++ b) :=
  vec_concat_homomorphism Int EmbeddableError i32.embeddable [25] [30]
    (fun x _ => ⟨[toString x], rfl⟩)

end Rig
